import Mathlib

/-!
Verification development for the P2P direct-connection component
(`src/components/DirectConnection.tsx` of qrsend).

The React component is shallowly embedded as a state machine:
`ComponentState` holds the React `useState` fields, `World` additionally
holds the `useRef` cells (`peerRef`, `connectionTimeoutRef`), the
PeerJS objects the component creates (peers, data connections), the
pending `window.setTimeout` timers, the `URL.createObjectURL` blob
registry, the envelopes passed to `connection.send`, and a clock.

Asynchronous callbacks (peer `open`/`error`, connection
`open`/`data`/`close`/`error`, timer expiry) and user actions (buttons,
scan results, text input) are events; `step` executes the corresponding
handler exactly as written in the source, and `enabledB` captures when
the runtime can deliver the event (e.g. a data connection only fires
`open` while it is not closed, a timer only fires at or after its
deadline and only while it is still pending).  React's batched state
updates are modelled by computing every update of one handler from the
handler's pre-state, and stale closures are modelled by recording the
mode value captured at handler-registration time (`capturedMode`).
`crypto.randomUUID()` and `Date.now()` are modelled as event parameters.
-/

namespace QRSend

/-- The `P2PMode` union type of the component (line 11 of the source). -/
inductive P2PMode
  | select
  | host
  | initializingClient
  | scan
  | connecting
  | connected
deriving DecidableEq, Repr

/-- Sender of a chat message: `'me' | 'peer'`. -/
inductive Sender
  | me
  | peer
deriving DecidableEq, Repr

/-- Kind of a chat message: `'text' | 'file'`. -/
inductive MsgType
  | text
  | file
deriving DecidableEq, Repr

/-- The `fileData` field of a `Message`.  `blobUrl` is modelled as an
index into the world's blob registry (the result of
`URL.createObjectURL`). -/
structure FileData where
  name : String
  size : Nat
  type : String
  blobUrl : Nat
deriving DecidableEq, Repr

/-- The `Message` interface (lines 13-25 of the source). -/
structure Message where
  id : String
  sender : Sender
  type : MsgType
  content : Option String
  fileData : Option FileData
  timestamp : Nat
deriving DecidableEq, Repr

/-- A JavaScript `Blob` (bytes plus media type). -/
structure Blob where
  bytes : List Nat
  type : String
deriving DecidableEq, Repr

/-- The value passed to `conn.send` and received by the `data` handler
(the wire envelope).  For a text envelope only `type` and `content` are
present on the wire; for a file envelope only `type`, `file`,
`fileName`, `fileType` and `fileSize` are. -/
structure WireData where
  type : String
  content : String
  file : List Nat
  fileName : String
  fileType : String
  fileSize : Nat
deriving DecidableEq, Repr

/-- A JavaScript `File` selected in the file input.  Its `size`
property is the length of its contents. -/
structure JSFile where
  name : String
  type : String
  bytes : List Nat
deriving DecidableEq, Repr

/-- JavaScript `file.size`. -/
def JSFile.size (f : JSFile) : Nat := f.bytes.length

/-- A pending `window.setTimeout` timer armed by `handleScan`:
its absolute deadline, the outbound connection captured by the closure,
and the (stale) `mode` value captured by the closure. -/
structure PendingTimer where
  deadline : Nat
  conn : Nat
  capturedMode : P2PMode
deriving DecidableEq, Repr

/-- A PeerJS `Peer` object created by `initializePeer`.  `capturedMode`
is the `mode` value captured by the handlers registered on it. -/
structure PeerRec where
  destroyed : Bool
  capturedMode : P2PMode
deriving DecidableEq, Repr

/-- A PeerJS `DataConnection`.  `owner` is the index of the peer that
created it, `opened` records that its `open` event fired (so the
handlers registered by `handleConnection` are attached), `closed` that
it has been closed (locally or by peer destruction), `closeHandled`
that its `close` handler has already run. -/
structure ConnRec where
  owner : Nat
  outbound : Bool
  opened : Bool
  closed : Bool
  closeHandled : Bool
deriving DecidableEq, Repr

/-- The React `useState` fields of the component (lines 28-34). -/
structure ComponentState where
  mode : P2PMode
  peerId : Option String
  connection : Option Nat
  messages : List Message
  inputText : String
  status : String
  error : Option String
deriving DecidableEq, Repr

/-- The component state together with the refs and the external objects
it manipulates. -/
structure World where
  comp : ComponentState
  peers : List PeerRec
  peerRef : Option Nat
  conns : List ConnRec
  timers : List (Option PendingTimer)
  timeoutRef : Option Nat
  blobs : List Blob
  sent : List (Nat × WireData)
  now : Nat
deriving DecidableEq, Repr

/-- Initial state: the component as mounted. -/
def w0 : World :=
  { comp := { mode := .select, peerId := none, connection := none,
              messages := [], inputText := "", status := "初期化中...",
              error := none },
    peers := [], peerRef := none, conns := [], timers := [],
    timeoutRef := none, blobs := [], sent := [], now := 0 }

/-- JavaScript truthiness of a nullable string. -/
def jsTruthy : Option String → Bool
  | none => false
  | some s => s != ""

/-- JavaScript falsiness of `s.trim()`: the trimmed string is empty
exactly when every character of `s` is whitespace. -/
def isBlank (s : String) : Bool :=
  s.data.all Char.isWhitespace

/-- Replace the element at index `i` by `f` of it (identity out of range). -/
def setAt : List α → Nat → (α → α) → List α
  | [], _, _ => []
  | a :: l, 0, f => f a :: l
  | a :: l, n + 1, f => a :: setAt l n f

/-- `peer.destroy()` on peer `i`: marks the peer destroyed and closes
every data connection it owns. -/
def destroyPeer (w : World) (i : Nat) : World :=
  { w with
    peers := setAt w.peers i (fun r => { r with destroyed := true }),
    conns := w.conns.map (fun c =>
      if c.owner = i then { c with closed := true } else c) }

/-- `initializePeer` (lines 64-127): destroys the previously created
peer (if any), then creates a new `Peer` and stores it in `peerRef`.
`captured` is the `mode` value the registered handlers close over.
The handlers registered on the new peer are delivered as events:
`peerOpen` (lines 83-89), `connIncoming` (the inbound-offer handler of
lines 91-109, whose per-connection `open`/`error`/`close` callbacks are
in turn delivered as `connOpen`/`connError`/`connClose`), and
`peerError` (lines 111-126). -/
def initializePeer (w : World) (captured : P2PMode) : World :=
  let w1 := match w.peerRef with
    | some i => destroyPeer w i
    | none => w
  { w1 with
    peers := w1.peers ++ [{ destroyed := false, capturedMode := captured }],
    peerRef := some w1.peers.length }

/-- The `peer.on('open')` handler (lines 83-89) followed by the
`useEffect` of lines 58-62 (`initializing_client` plus a ready `peerId`
moves the mode to `scan`). -/
def peerOpenHandler (w : World) (p : Nat) (id : String) : World :=
  let captured := match w.peers.get? p with
    | some r => r.capturedMode
    | none => P2PMode.select
  let c1 := { w.comp with peerId := some id }
  let c2 := if captured = P2PMode.host then
      { c1 with status := "接続待機中..." } else c1
  let c3 := if c2.mode = P2PMode.initializingClient && jsTruthy c2.peerId then
      { c2 with mode := P2PMode.scan } else c2
  { w with comp := c3 }

/-- The `peer.on('error')` classification of lines 111-126: the five
recognized PeerJS error types get fixed human-readable messages, any
other error type falls back to the initial template embedding the raw
error type. -/
def mapPeerError (t : String) : String :=
  if t = "peer-unavailable" then "相手が見つかりませんでした。IDを確認してください。"
  else if t = "disconnected" then "サーバーとの接続が切れました。"
  else if t = "network" then "ネットワークエラーが発生しました。Wi-Fi環境を確認してください。"
  else if t = "browser-incompatible" then "お使いのブラウザは対応していない可能性があります。"
  else if t = "server-error" then "接続サーバー(PeerJS)に到達できません。"
  else "エラー: " ++ t

/-- The five fixed human-readable classifications of `peer.on('error')`. -/
def knownPeerErrorMessages : List String :=
  ["相手が見つかりませんでした。IDを確認してください。",
   "サーバーとの接続が切れました。",
   "ネットワークエラーが発生しました。Wi-Fi環境を確認してください。",
   "お使いのブラウザは対応していない可能性があります。",
   "接続サーバー(PeerJS)に到達できません。"]

/-- The `peer.on('error')` handler body (line 125): surfaces the
classified message. -/
def peerErrorHandler (w : World) (t : String) : World :=
  { w with comp := { w.comp with error := some (mapPeerError t) } }

/-- `addMessage` (lines 210-224): appends one message built from the
arguments, a fresh id and the current time to the log. -/
def addMessage (s : ComponentState) (sender : Sender) (t : MsgType)
    (content : Option String) (fd : Option FileData)
    (freshId : String) (ts : Nat) : ComponentState :=
  { s with messages := s.messages ++
      [{ id := freshId, sender := sender, type := t, content := content,
         fileData := fd, timestamp := ts }] }

/-- Clear the timer referenced by `connectionTimeoutRef` (lines 130-133). -/
def clearTimeoutRef (w : World) : World :=
  match w.timeoutRef with
  | some i => { w with timers := setAt w.timers i (fun _ => none),
                       timeoutRef := none }
  | none => w

/-- `handleConnection` head (lines 129-138): clears the pending
handshake timer, binds the connection, enters `connected`.  The conn is
marked `opened` because this runs from the connection's `open` event
and registers the `data`/`close`/`error` handlers. -/
def handleConnection (w : World) (c : Nat) : World :=
  let w1 := clearTimeoutRef w
  { w1 with
    comp := { w1.comp with
        connection := some c
        mode := .connected
        status := "接続確立！"
        error := none },
    conns := setAt w1.conns c (fun r => { r with opened := true }) }

/-- The `conn.on('data')` handler (lines 140-153): a `"text"` envelope
appends a peer text message; a `"file"` envelope builds a blob from the
delivered bytes, registers an object URL for it and appends a peer file
message recording the declared name/size/type; anything else is
ignored. -/
def handleData (w : World) (d : WireData) (freshId : String) (ts : Nat) : World :=
  if d.type = "text" then
    { w with comp := addMessage w.comp .peer .text (some d.content) none freshId ts }
  else if d.type = "file" then
    { w with
      blobs := w.blobs ++ [{ bytes := d.file, type := d.fileType }],
      comp := addMessage w.comp .peer .file none
        (some { name := d.fileName, size := d.fileSize, type := d.fileType,
                blobUrl := w.blobs.length }) freshId ts }
  else w

/-- The `peer.on('connection')` handler (lines 91-93): an inbound
offer sets the status and yields a new inbound `DataConnection` (owned
by the listening referenced peer) with the handlers of lines 94-108
registered on it. -/
def connIncomingHandler (w : World) : World :=
  { w with
    comp := { w.comp with status := "接続要求を受信中..." },
    conns := w.conns ++
      [{ owner := w.peerRef.getD 0, outbound := false, opened := false,
         closed := false, closeHandled := false }] }

/-- The `conn.on('close')` handlers: for an inbound connection the
handler of lines 104-108 (whose closure reads the `mode` captured at
`initializePeer` time; when it is not `connected` the status returns to
waiting); if the connection has been through `handleConnection`,
additionally the handler of lines 155-160.  In all cases the
connection is closed. -/
def connCloseHandler (w : World) (c : Nat) : World :=
  let r? := w.conns.get? c
  let captured := ((r?.bind (fun r => w.peers.get? r.owner)).map
      (fun p => p.capturedMode)).getD P2PMode.select
  let w1 := if (r?.map (fun r => !r.outbound)).getD false
               && !(captured = P2PMode.connected) then
      { w with comp := { w.comp with status := "接続待機中..." } }
    else w
  let w2 := if (r?.map (fun r => r.opened)).getD false then
      { w1 with comp := { w1.comp with
          status := "相手との接続が切れました"
          connection := none
          mode := .select } }
    else w1
  { w2 with conns := setAt w2.conns c (fun r => { r with closed := true, closeHandled := true }) }

/-- The `conn.on('error')` handlers: for an outbound connection the
handler of lines 203-207 (error message, back to `select`); for an
inbound connection the handler of lines 98-102 (error message and
status); if the connection has been through `handleConnection`,
additionally the handler of lines 162-165 (status only). -/
def connErrorHandler (w : World) (c : Nat) : World :=
  let r? := w.conns.get? c
  let w1 := if (r?.map (fun r => r.outbound)).getD false then
      { w with comp := { w.comp with
          error := some "接続に失敗しました。ネットワーク環境を確認してください。",
          mode := .select } }
    else if (r?.map (fun r => !r.outbound)).getD false then
      { w with comp := { w.comp with
          error := some "接続エラーが発生しました。もう一度試してください。",
          status := "エラー" } }
    else w
  if (r?.map (fun r => r.opened)).getD false then
    { w1 with comp := { w1.comp with status := "通信エラーが発生しました" } }
  else w1

/-- `handleScan` (lines 181-208): guard, then `connecting`, an outbound
`connect`, and a 10000 ms timeout whose closure captures the pre-update
`mode` and the new connection.  The timer id is stored in
`connectionTimeoutRef`. -/
def handleScan (w : World) (scannedId : String) (t : Nat) : World :=
  if w.peerRef.isNone || !jsTruthy w.comp.peerId || scannedId == "" then w
  else
    { w with
      comp := { w.comp with mode := .connecting, status := "接続を確立しています..." },
      conns := w.conns ++
        [{ owner := w.peerRef.getD 0, outbound := true, opened := false,
           closed := false, closeHandled := false }],
      timers := w.timers ++
        [some { deadline := t + 10000, conn := w.conns.length,
                capturedMode := w.comp.mode }],
      timeoutRef := some w.timers.length,
      now := t }

/-- Expiry of the timer armed by `handleScan` (lines 191-197): if it is
still pending it runs once; the callback checks the captured `mode`,
reports the timeout and closes the captured connection. -/
def fireTimeout (w : World) (i : Nat) (t : Nat) : World :=
  match w.timers.get? i with
  | some (some T) =>
    let w1 := { w with timers := setAt w.timers i (fun _ => none), now := t }
    if T.capturedMode = P2PMode.connected then w1
    else
      { w1 with
        comp := { w1.comp with
            error := some "接続がタイムアウトしました。"
            status := "タイムアウト" },
        conns := setAt w1.conns T.conn (fun r => { r with closed := true }) }
  | _ => w

/-- `startHosting` (lines 168-173).  The handlers registered by the
`initializePeer` call close over the pre-update `mode`. -/
def startHosting (w : World) : World :=
  let captured := w.comp.mode
  initializePeer
    { w with comp := { w.comp with
        mode := .host
        status := "ID取得中..."
        error := none } } captured

/-- `startScanning` (lines 175-179), followed by the `useEffect` of
lines 58-62 (a still-set `peerId` from a previous peer moves the mode
straight to `scan`). -/
def startScanning (w : World) : World :=
  let captured := w.comp.mode
  let w1 := initializePeer
    { w with comp := { w.comp with mode := .initializingClient, error := none } }
    captured
  if jsTruthy w1.comp.peerId then
    { w1 with comp := { w1.comp with mode := .scan } }
  else w1

/-- `sendMessage` (lines 226-236): guard on trimmed input and a bound
connection, then send a text envelope, append the local echo and clear
the input. -/
def sendMessage (w : World) (freshId : String) (ts : Nat) : World :=
  if isBlank w.comp.inputText then w
  else match w.comp.connection with
    | none => w
    | some c =>
      { w with
        sent := w.sent ++ [(c,
          { type := "text", content := w.comp.inputText, file := [],
            fileName := "", fileType := "", fileSize := 0 })],
        comp := { addMessage w.comp .me .text (some w.comp.inputText) none freshId ts
                  with inputText := "" } }

/-- `sendFile` (lines 238-259): guard on a selected file and a bound
connection, then send one file envelope, create an object URL and
append the local echo. -/
def sendFile (w : World) (file : Option JSFile) (freshId : String) (ts : Nat) : World :=
  match file, w.comp.connection with
  | some f, some c =>
    { w with
      sent := w.sent ++ [(c,
        { type := "file", content := "", file := f.bytes, fileName := f.name,
          fileType := f.type, fileSize := f.size })],
      blobs := w.blobs ++ [{ bytes := f.bytes, type := f.type }],
      comp := addMessage w.comp .me .file none
        (some { name := f.name, size := f.size, type := f.type,
                blobUrl := w.blobs.length }) freshId ts }
  | _, _ => w

/-- `resetConnection` (lines 269-275): destroys the current peer and
resets mode, peerId, connection and error.  It touches neither the
message log nor the pending handshake timer. -/
def resetConnection (w : World) : World :=
  let w1 := match w.peerRef with
    | some i => destroyPeer w i
    | none => w
  { w1 with comp := { w1.comp with
      mode := .select
      peerId := none
      connection := none
      error := none } }

/-- The textarea `onChange` handler (line 560). -/
def setInput (w : World) (s : String) : World :=
  { w with comp := { w.comp with inputText := s } }

/-- Events: user actions and asynchronous callbacks delivered to the
component. -/
inductive Event
  | startHosting
  | startScanning
  | regenerateId
  | peerOpen (p : Nat) (id : String)
  | peerError (t : String)
  | connIncoming
  | handleScan (scannedId : String) (t : Nat)
  | connOpen (c : Nat)
  | connData (c : Nat) (d : WireData) (freshId : String) (ts : Nat)
  | connClose (c : Nat)
  | connError (c : Nat)
  | fire (i : Nat) (t : Nat)
  | setInput (s : String)
  | sendMessage (freshId : String) (ts : Nat)
  | sendFile (file : Option JSFile) (freshId : String) (ts : Nat)
  | resetConnection
deriving DecidableEq, Repr

/-- Execute one event's handler. -/
def step (w : World) (e : Event) : World :=
  match e with
  | .startHosting => startHosting w
  | .startScanning => startScanning w
  | .regenerateId => initializePeer w w.comp.mode
  | .peerOpen p id => peerOpenHandler w p id
  | .peerError t => peerErrorHandler w t
  | .connIncoming => connIncomingHandler w
  | .handleScan sid t => handleScan w sid t
  | .connOpen c => handleConnection w c
  | .connData _ d fid ts => handleData w d fid ts
  | .connClose c => connCloseHandler w c
  | .connError c => connErrorHandler w c
  | .fire i t => fireTimeout w i t
  | .setInput s => setInput w s
  | .sendMessage fid ts => sendMessage w fid ts
  | .sendFile f fid ts => sendFile w f fid ts
  | .resetConnection => resetConnection w

/-- When the runtime can deliver an event: UI buttons exist only on
their screens, a connection fires `open` once and only while not
closed, `data` only while open, a timer fires only while pending and at
or after its deadline, destroyed peers are silent, and the clock is
monotone. -/
def enabledB (w : World) (e : Event) : Bool :=
  match e with
  | .startHosting => w.comp.mode = P2PMode.select
  | .startScanning => w.comp.mode = P2PMode.select
  | .regenerateId =>
      w.comp.mode = P2PMode.host && w.comp.status != "初期化中..."
  | .peerOpen p _ => (w.peers.get? p).any (fun r => !r.destroyed)
  | .peerError _ =>
      (w.peerRef.bind (fun i => w.peers.get? i)).any (fun r => !r.destroyed)
  | .connIncoming =>
      (w.peerRef.bind (fun i => w.peers.get? i)).any (fun r => !r.destroyed)
  | .handleScan _ t => w.comp.mode = P2PMode.scan && w.now ≤ t
  | .connOpen c => (w.conns.get? c).any (fun r => !r.closed && !r.opened)
  | .connData c _ _ _ => (w.conns.get? c).any (fun r => r.opened && !r.closed)
  | .connClose c =>
      (w.conns.get? c).any (fun r => (r.opened || !r.outbound) && !r.closeHandled)
  | .connError c => (w.conns.get? c).any (fun r => !r.closed)
  | .fire i t =>
      ((w.timers.get? i).getD none).any (fun T => T.deadline ≤ t) && w.now ≤ t
  | .setInput _ => w.comp.mode = P2PMode.connected
  | .sendMessage _ _ => w.comp.mode = P2PMode.connected
  | .sendFile _ _ _ => w.comp.mode = P2PMode.connected
  | .resetConnection => true

/-- Run a list of events. -/
def run (w : World) (es : List Event) : World :=
  es.foldl step w

/-- Each event of the list is deliverable in turn. -/
def allEnabled (w : World) : List Event → Bool
  | [] => true
  | e :: es => enabledB w e && allEnabled (step w e) es

/-- In index `i`, is the peer live (created and not destroyed)? -/
def peerLiveB (w : World) (i : Nat) : Bool :=
  (w.peers.get? i).any (fun r => !r.destroyed)

/-- In index `c`, is the data connection live (created and not closed)? -/
def connLiveB (w : World) (c : Nat) : Bool :=
  (w.conns.get? c).any (fun r => !r.closed)

/-- Structural invariant of the component: every live peer is the one
referenced by `peerRef`, and every live connection — inbound or
outbound — is owned by the referenced peer.  (A hosting peer may own
several simultaneously live inbound connections, so nothing stronger
holds globally; but destroying the referenced peer, as every start and
reset does first, closes them all.) -/
def Inv (w : World) : Prop :=
  (∀ i, peerLiveB w i = true → w.peerRef = some i)
  ∧ (∀ r ∈ w.conns, r.closed = false → w.peerRef = some r.owner)

/-- A session in `connected` mode with one opened connection `0`:
startScanning, peer `open`, a scan of the host id at time 0, and the
outbound connection's `open` before the 10 s deadline. -/
def wConnected : World :=
  run w0 [.startScanning, .peerOpen 0 "A", .handleScan "H" 0, .connOpen 0]

/-- A guest session right after `handleScan`: mode `connecting`, one
outbound connection `0`, one armed handshake timer `0` with deadline
10000. -/
def wArmed : World :=
  run w0 [.startScanning, .peerOpen 0 "A", .handleScan "H" 0]

/-- The guest session just before `handleScan`: mode `scan`, peer `0`
open with id `"A"`. -/
def wScanning : World :=
  run w0 [.startScanning, .peerOpen 0 "A"]

/-- A file envelope declaring `fileSize = 5` but delivering 3 bytes. -/
def mismatchedEnvelope : WireData :=
  { type := "file", content := "", file := [1, 2, 3], fileName := "a.bin",
    fileType := "application/octet-stream", fileSize := 5 }

/-- A text envelope carrying `"hola"`. -/
def holaEnvelope : WireData :=
  { type := "text", content := "hola", file := [], fileName := "",
    fileType := "", fileSize := 0 }

/-- A connected session whose log already holds one received text
message. -/
def wWithMessage : World :=
  step wConnected (.connData 0 holaEnvelope "id1" 50)

/-- A connected session with `"hi"` typed in the input box. -/
def wTyped : World :=
  step wConnected (.setInput "hi")

/-- A concrete selected file of 2 bytes. -/
def smallFile : JSFile :=
  { name := "f.txt", type := "text/plain", bytes := [9, 8] }

/-- wArmed after `resetConnection`: the peer is destroyed and the
component fields are reset, but timer `0` is still pending. -/
def wResetWhileConnecting : World :=
  step wArmed .resetConnection

/-- A second connect attempt issued 9 s after a first attempt was
abandoned by `resetConnection`: timer `0` (deadline 10000) of the first
attempt is still pending while attempt two (conn `1`, timer `1`,
deadline 19000) is connecting. -/
def wSecondAttempt : World :=
  run w0 [.startScanning, .peerOpen 0 "A", .handleScan "H" 0, .resetConnection,
          .startScanning, .peerOpen 1 "B", .handleScan "H" 9000]

/-- A guest session whose outbound attempt failed (`connError`): back
on the select screen with connection 0 still unclosed and peer 0 live,
ready for a second start without an intervening reset. -/
def wErrored : World :=
  run w0 [.startScanning, .peerOpen 0 "A", .handleScan "H" 0, .connError 0]

/-- Reachability by deliverable events. -/
inductive Reachable : World → World → Prop
  | refl (w : World) : Reachable w w
  | tail {w w' : World} {e : Event} :
      Reachable w w' → enabledB w' e = true → Reachable w (step w' e)

theorem Reachable.trans {w1 w2 w3 : World}
    (h1 : Reachable w1 w2) (h2 : Reachable w2 w3) : Reachable w1 w3 := by
  induction h2 with
  | refl => exact h1
  | tail h e ih => exact Reachable.tail ih e

theorem reachable_run {es : List Event} {w : World}
    (h : allEnabled w es = true) : Reachable w (run w es) := by
  induction es generalizing w with
  | nil => exact Reachable.refl w
  | cons e es ih =>
    simp only [allEnabled, Bool.and_eq_true] at h
    exact Reachable.trans (Reachable.tail (Reachable.refl w) h.1) (ih h.2)

theorem length_setAt (l : List α) (i : Nat) (f : α → α) :
    (setAt l i f).length = l.length := by
  induction l generalizing i with
  | nil => rfl
  | cons a l ih => cases i with
    | zero => rfl
    | succ n => simpa [setAt] using ih n

theorem get?_setAt (l : List α) (i j : Nat) (f : α → α) :
    (setAt l i f).get? j = if j = i then (l.get? j).map f else l.get? j := by
  induction l generalizing i j with
  | nil => simp [setAt]
  | cons a l ih =>
    cases i with
    | zero => cases j with
      | zero => simp [setAt]
      | succ m => simp [setAt]
    | succ n => cases j with
      | zero => simp [setAt]
      | succ m => simpa [setAt, Nat.succ_eq_add_one] using ih n m

theorem mem_setAt {l : List α} {i : Nat} {f : α → α} {b : α}
    (h : b ∈ setAt l i f) : b ∈ l ∨ ∃ a ∈ l, b = f a := by
  induction l generalizing i with
  | nil => simp [setAt] at h
  | cons a l ih =>
    cases i with
    | zero =>
      rw [setAt, List.mem_cons] at h
      rcases h with h | h
      · exact Or.inr ⟨a, List.mem_cons_self a l, h⟩
      · exact Or.inl (List.mem_cons_of_mem a h)
    | succ n =>
      rw [setAt, List.mem_cons] at h
      rcases h with h | h
      · exact Or.inl (h ▸ List.mem_cons_self a l)
      · rcases ih h with h' | ⟨x, hx, hb⟩
        · exact Or.inl (List.mem_cons_of_mem a h')
        · exact Or.inr ⟨x, List.mem_cons_of_mem a hx, hb⟩

/-- C4 counterexample: PeerJS reports many more error types than the
five the component classifies; for any other type (here
`"unavailable-id"`) the raw vendor error code is embedded in the
surfaced message, which is not one of the human-readable
classifications.  The state is reached by starting scanning and
receiving that peer error. -/
theorem c4_counterexample :
    Reachable w0 (run w0 [.startScanning, .peerError "unavailable-id"])
    ∧ (run w0 [.startScanning, .peerError "unavailable-id"]).comp.error
        = some ("エラー: " ++ "unavailable-id")
    ∧ ("エラー: " ++ "unavailable-id") ∉ knownPeerErrorMessages := by
  exact ⟨reachable_run (by decide), by decide, by decide⟩

/-- C4 (amended): every fault delivered to the peer error handler is
surfaced through the error state as `mapPeerError` of its type; the
five recognized PeerJS error types map to fixed human-readable
messages, and every other error type is surfaced as the fallback
message `"エラー: "` followed by the raw vendor error type (so raw codes
do escape this layer for unrecognized types). -/
theorem c4_error_taxonomy :
    (∀ t : String, mapPeerError t ∈ knownPeerErrorMessages ∨
      mapPeerError t = "エラー: " ++ t)
    ∧ (∀ (w : World) (t : String), step w (.peerError t) =
        { w with comp := { w.comp with error := some (mapPeerError t) } })
    ∧ mapPeerError "peer-unavailable" = "相手が見つかりませんでした。IDを確認してください。"
    ∧ mapPeerError "disconnected" = "サーバーとの接続が切れました。"
    ∧ mapPeerError "network" = "ネットワークエラーが発生しました。Wi-Fi環境を確認してください。"
    ∧ mapPeerError "browser-incompatible" = "お使いのブラウザは対応していない可能性があります。"
    ∧ mapPeerError "server-error" = "接続サーバー(PeerJS)に到達できません。" := by
  refine ⟨?_, fun w t => rfl, by decide, by decide, by decide, by decide, by decide⟩
  intro t
  unfold mapPeerError
  split_ifs <;> simp [knownPeerErrorMessages]

/-- C2 counterexample: an incoming file envelope declaring
`fileSize = 5` while delivering only 3 bytes is not dropped: exactly
one file message is appended recording the declared size 5, the
reconstructed blob holds the 3 delivered bytes, no fault is reported
(the error state stays `none`), and the session stays connected. -/
theorem c2_counterexample :
    Reachable w0 (step wConnected (.connData 0 mismatchedEnvelope "id1" 60))
    ∧ (step wConnected (.connData 0 mismatchedEnvelope "id1" 60)).comp.messages.length = 1
    ∧ (step wConnected (.connData 0 mismatchedEnvelope "id1" 60)).comp.messages.map
        (fun m => m.fileData.map (fun fd => fd.size)) = [some 5]
    ∧ (step wConnected (.connData 0 mismatchedEnvelope "id1" 60)).blobs.map
        (fun b => b.bytes.length) = [3]
    ∧ (step wConnected (.connData 0 mismatchedEnvelope "id1" 60)).comp.error = none
    ∧ (step wConnected (.connData 0 mismatchedEnvelope "id1" 60)).comp.mode
        = P2PMode.connected := by
  exact ⟨Reachable.tail (reachable_run (by decide)) (by decide),
    by decide, by decide, by decide, by decide, by decide⟩

/-- C2 (amended): the receiver performs no size validation.  For every
incoming file envelope it appends exactly one File message whose
reconstructed byte object holds exactly the delivered bytes (length
`d.file.length`, not necessarily the declared `fileSize`), records the
declared name, size and type, and registers one blob; every other part
of the state — error, mode, bound connection, previously received
messages — is unchanged, so the channel remains usable. -/
theorem c2_file_receive :
    ∀ (w : World) (c : Nat) (cont : String) (bytes : List Nat)
      (nm ft : String) (fs : Nat) (fid : String) (ts : Nat),
      step w (.connData c
        { type := "file", content := cont, file := bytes, fileName := nm,
          fileType := ft, fileSize := fs } fid ts)
      = { w with
          blobs := w.blobs ++ [{ bytes := bytes, type := ft }],
          comp := { w.comp with messages := w.comp.messages ++
            [{ id := fid
               sender := .peer
               type := .file
               content := none
               fileData := some { name := nm
                                  size := fs
                                  type := ft
                                  blobUrl := w.blobs.length }
               timestamp := ts }] } } := by
  intro w c cont bytes nm ft fs fid ts
  rfl

/-- C7: for every incoming text envelope carrying content `s` (whatever
junk the remaining envelope fields hold), the receiver appends exactly
one message with sender `peer`, kind text and content `s`, strictly
after all previously received messages, and changes nothing else. -/
theorem c7_text_receive :
    ∀ (w : World) (c : Nat) (s : String) (bytes : List Nat)
      (nm ft : String) (fs : Nat) (fid : String) (ts : Nat),
      step w (.connData c
        { type := "text", content := s, file := bytes, fileName := nm,
          fileType := ft, fileSize := fs } fid ts)
      = { w with
          comp := { w.comp with messages := w.comp.messages ++
            [{ id := fid, sender := .peer, type := .text, content := some s,
               fileData := none, timestamp := ts }] } } := by
  intro w c s bytes nm ft fs fid ts
  rfl

/-- C6 counterexample: from a connected session holding one received
message, `resetConnection` does not empty the message log — the log
still holds that message afterwards, contradicting that on reset the
messages list becomes empty. -/
theorem c6_counterexample :
    Reachable w0 wWithMessage
    ∧ wWithMessage.comp.messages.length = 1
    ∧ (step wWithMessage .resetConnection).comp.mode = P2PMode.select
    ∧ (step wWithMessage .resetConnection).comp.messages
        = wWithMessage.comp.messages
    ∧ (step wWithMessage .resetConnection).comp.messages ≠ [] := by
  refine ⟨Reachable.tail (reachable_run (by decide)) (by decide),
    by decide, by decide, ?_, by decide⟩
  show (resetConnection wWithMessage).comp.messages = _
  rfl

/-- C6 (amended): the message log is never purged: a remote channel
close leaves the messages list unchanged, and `resetConnection` also
leaves the messages list unchanged (it does not empty it); in both
cases no field of any existing message is modified. -/
theorem c6_messages_preserved :
    ∀ (w : World) (c : Nat),
      (step w .resetConnection).comp.messages = w.comp.messages
      ∧ (step w (.connClose c)).comp.messages = w.comp.messages := by
  intro w c
  constructor
  · show (resetConnection w).comp.messages = w.comp.messages
    unfold resetConnection
    cases w.peerRef <;> rfl
  · show (connCloseHandler w c).comp.messages = w.comp.messages
    unfold connCloseHandler
    dsimp only []
    split <;> split <;> rfl

/-- C9: the receive handler ignores every envelope whose type is
neither `"text"` nor `"file"` (no message, no fault, no state change at
all); `sendMessage` with whitespace-only input or without a bound
connection is a no-op; `sendFile` without a selected file or without a
bound connection is a no-op. -/
theorem c9_noop_paths :
    (∀ (w : World) (c : Nat) (d : WireData) (fid : String) (ts : Nat),
      d.type ≠ "text" → d.type ≠ "file" → step w (.connData c d fid ts) = w)
    ∧ (∀ (w : World) (fid : String) (ts : Nat),
      isBlank w.comp.inputText = true → step w (.sendMessage fid ts) = w)
    ∧ (∀ (w : World) (fid : String) (ts : Nat),
      w.comp.connection = none → step w (.sendMessage fid ts) = w)
    ∧ (∀ (w : World) (f : Option JSFile) (fid : String) (ts : Nat),
      w.comp.connection = none → step w (.sendFile f fid ts) = w)
    ∧ (∀ (w : World) (fid : String) (ts : Nat),
      step w (.sendFile none fid ts) = w) := by
  refine ⟨?_, ?_, ?_, ?_, ?_⟩
  · intro w c d fid ts h1 h2
    show handleData w d fid ts = w
    unfold handleData
    simp [h1, h2]
  · intro w fid ts h
    show sendMessage w fid ts = w
    unfold sendMessage
    simp [h]
  · intro w fid ts h
    show sendMessage w fid ts = w
    unfold sendMessage
    rw [h]
    split <;> rfl
  · intro w f fid ts h
    show sendFile w f fid ts = w
    unfold sendFile
    rw [h]
    cases f <;> rfl
  · intro w fid ts
    show sendFile w none fid ts = w
    unfold sendFile
    cases h : w.comp.connection <;> rfl

/-- C9 witness: concrete instances — an envelope of unknown type
`"ping"` received while connected changes nothing, and sends from the
initial (unbound) state change nothing. -/
theorem c9_noop_paths_witness :
    step wConnected (.connData 0
      { type := "ping", content := "", file := [], fileName := "",
        fileType := "", fileSize := 0 } "idX" 90) = wConnected
    ∧ step w0 (.sendMessage "idY" 91) = w0
    ∧ step w0 (.sendFile (some smallFile) "idZ" 92) = w0 := by
  exact ⟨c9_noop_paths.1 wConnected 0 _ "idX" 90 (by decide) (by decide),
    c9_noop_paths.2.1 w0 "idY" 91 (by decide),
    c9_noop_paths.2.2.2.1 w0 (some smallFile) "idZ" 92 (by decide)⟩

/-- C8: with a bound connection, `sendMessage` on non-blank input
appends exactly one local text message (optimistic echo), transmits
exactly one text envelope carrying the input as a single unit and
clears the input; `sendFile` with a selected file appends exactly one
local file message, registers one object URL and transmits exactly one
file envelope carrying the file's name, type, size and bytes. -/
theorem c8_send_paths :
    (∀ (w : World) (c : Nat) (fid : String) (ts : Nat),
      w.comp.connection = some c → isBlank w.comp.inputText = false →
      step w (.sendMessage fid ts)
      = { w with
          sent := w.sent ++ [(c,
            { type := "text", content := w.comp.inputText, file := [],
              fileName := "", fileType := "", fileSize := 0 })],
          comp := { w.comp with
            messages := w.comp.messages ++
              [{ id := fid, sender := .me, type := .text,
                 content := some w.comp.inputText, fileData := none,
                 timestamp := ts }]
            inputText := "" } })
    ∧ (∀ (w : World) (c : Nat) (f : JSFile) (fid : String) (ts : Nat),
      w.comp.connection = some c →
      step w (.sendFile (some f) fid ts)
      = { w with
          sent := w.sent ++ [(c,
            { type := "file", content := "", file := f.bytes,
              fileName := f.name, fileType := f.type, fileSize := f.size })],
          blobs := w.blobs ++ [{ bytes := f.bytes, type := f.type }],
          comp := { w.comp with messages := w.comp.messages ++
            [{ id := fid
               sender := .me
               type := .file
               content := none
               fileData := some { name := f.name
                                  size := f.size
                                  type := f.type
                                  blobUrl := w.blobs.length }
               timestamp := ts }] } }) := by
  constructor
  · intro w c fid ts hc ht
    show sendMessage w fid ts = _
    unfold sendMessage
    rw [hc]
    simp only [addMessage]
    split
    · rename_i hns
      exact absurd hns (by simp [ht])
    · rfl
  · intro w c f fid ts hc
    show sendFile w (some f) fid ts = _
    unfold sendFile
    rw [hc]
    rfl

/-- C8 witness: in a connected session with `"hi"` typed, sending the
text and sending a 2-byte file behave as C8 states. -/
theorem c8_send_paths_witness :
    step wTyped (.sendMessage "m1" 70)
      = { wTyped with
          sent := wTyped.sent ++ [(0,
            { type := "text", content := wTyped.comp.inputText, file := [],
              fileName := "", fileType := "", fileSize := 0 })],
          comp := { wTyped.comp with
            messages := wTyped.comp.messages ++
              [{ id := "m1", sender := .me, type := .text,
                 content := some wTyped.comp.inputText, fileData := none,
                 timestamp := 70 }]
            inputText := "" } }
    ∧ step wConnected (.sendFile (some smallFile) "m2" 80)
      = { wConnected with
          sent := wConnected.sent ++ [(0,
            { type := "file", content := "", file := smallFile.bytes,
              fileName := smallFile.name, fileType := smallFile.type,
              fileSize := smallFile.size })],
          blobs := wConnected.blobs ++
            [{ bytes := smallFile.bytes, type := smallFile.type }],
          comp := { wConnected.comp with messages := wConnected.comp.messages ++
            [{ id := "m2"
               sender := .me
               type := .file
               content := none
               fileData := some { name := smallFile.name
                                  size := smallFile.size
                                  type := smallFile.type
                                  blobUrl := wConnected.blobs.length }
               timestamp := 80 }] } } := by
  exact ⟨c8_send_paths.1 wTyped 0 "m1" 70 (by decide) (by decide),
    c8_send_paths.2 wConnected 0 smallFile "m2" 80 (by decide)⟩

theorem messages_initializePeer (w : World) (m : P2PMode) :
    (initializePeer w m).comp.messages = w.comp.messages := by
  unfold initializePeer
  cases w.peerRef <;> rfl

theorem messages_clearTimeoutRef (w : World) :
    (clearTimeoutRef w).comp.messages = w.comp.messages := by
  unfold clearTimeoutRef
  cases w.timeoutRef <;> rfl

theorem messages_peerOpenHandler (w : World) (p : Nat) (id : String) :
    (peerOpenHandler w p id).comp.messages = w.comp.messages := by
  unfold peerOpenHandler
  cases w.peers.get? p <;> dsimp only [] <;> split <;> split <;> rfl

/-- C10: the log is append-only.  `addMessage` appends exactly one
message, built from its arguments, the fresh id and the timestamp, at
the end of the log; and for every operation of the component — every
user action and every delivered callback — the message log before the
operation is a prefix of the log after it (nothing is modified,
reordered or removed). -/
theorem c10_append_only :
    (∀ (s : ComponentState) (sd : Sender) (t : MsgType) (content : Option String)
       (fd : Option FileData) (fid : String) (ts : Nat),
      (addMessage s sd t content fd fid ts).messages
        = s.messages ++ [{ id := fid
                           sender := sd
                           type := t
                           content := content
                           fileData := fd
                           timestamp := ts }])
    ∧ (∀ (w : World) (e : Event), w.comp.messages <+: (step w e).comp.messages) := by
  constructor
  · intro s sd t content fd fid ts
    rfl
  · intro w e
    cases e with
    | startHosting =>
      show w.comp.messages <+: (startHosting w).comp.messages
      unfold startHosting
      rw [messages_initializePeer]
    | startScanning =>
      show w.comp.messages <+: (startScanning w).comp.messages
      simp only [startScanning]
      split <;> simp [messages_initializePeer, List.prefix_rfl]
    | regenerateId =>
      show w.comp.messages <+: (initializePeer w w.comp.mode).comp.messages
      rw [messages_initializePeer]
    | peerOpen p id =>
      show w.comp.messages <+: (peerOpenHandler w p id).comp.messages
      rw [messages_peerOpenHandler]
    | peerError t => exact List.prefix_rfl
    | connIncoming => exact List.prefix_rfl
    | handleScan sid t =>
      show w.comp.messages <+: (handleScan w sid t).comp.messages
      unfold handleScan
      split <;> rfl
    | connOpen c =>
      show w.comp.messages <+: (handleConnection w c).comp.messages
      unfold handleConnection
      rw [messages_clearTimeoutRef]
    | connData c d fid ts =>
      show w.comp.messages <+: (handleData w d fid ts).comp.messages
      unfold handleData
      split
      · exact List.prefix_append _ _
      · split
        · exact List.prefix_append _ _
        · exact List.prefix_rfl
    | connClose c =>
      show w.comp.messages <+: (connCloseHandler w c).comp.messages
      unfold connCloseHandler
      dsimp only []
      split <;> split <;> rfl
    | connError c =>
      show w.comp.messages <+: (connErrorHandler w c).comp.messages
      unfold connErrorHandler
      dsimp only []
      split <;> split <;> try split
      all_goals rfl
    | fire i t =>
      show w.comp.messages <+: (fireTimeout w i t).comp.messages
      unfold fireTimeout
      split
      · split <;> rfl
      · rfl
    | setInput s => exact List.prefix_rfl
    | sendMessage fid ts =>
      show w.comp.messages <+: (sendMessage w fid ts).comp.messages
      unfold sendMessage
      split
      · exact List.prefix_rfl
      · split
        · exact List.prefix_rfl
        · exact List.prefix_append _ _
    | sendFile f fid ts =>
      show w.comp.messages <+: (sendFile w f fid ts).comp.messages
      unfold sendFile
      split
      · exact List.prefix_append _ _
      · exact List.prefix_rfl
    | resetConnection =>
      show w.comp.messages <+: (resetConnection w).comp.messages
      unfold resetConnection
      cases w.peerRef <;> rfl

theorem get?_setAt_closed {l : List ConnRec} {j c : Nat} {f : ConnRec → ConnRec}
    (hpres : ∀ x, x.closed = true → (f x).closed = true) {r : ConnRec}
    (hg : l.get? c = some r) (hc : r.closed = true) :
    ∃ r', (setAt l j f).get? c = some r' ∧ r'.closed = true := by
  rw [get?_setAt]
  by_cases h : c = j
  · exact ⟨f r, by rw [if_pos h, hg, Option.map_some'], hpres r hc⟩
  · exact ⟨r, by rw [if_neg h, hg], hc⟩

theorem get?_map_closed {l : List ConnRec} {i c : Nat} {r : ConnRec}
    (hg : l.get? c = some r) (hc : r.closed = true) :
    ∃ r', (l.map (fun x => if x.owner = i then { x with closed := true } else x)).get? c
        = some r' ∧ r'.closed = true := by
  refine ⟨_, by rw [List.get?_map, hg, Option.map_some'], ?_⟩
  dsimp only []
  split <;> simp [hc]

theorem get?_setAt_none {l : List (Option PendingTimer)} {i j : Nat}
    (hg : l.get? i = some none) :
    (setAt l j (fun _ => none)).get? i = some none := by
  rw [get?_setAt]
  by_cases h : i = j
  · rw [if_pos h, hg, Option.map_some']
  · rw [if_neg h, hg]

theorem get?_append_left {l l' : List α} {i : Nat} {a : α}
    (hg : l.get? i = some a) : (l ++ l').get? i = some a := by
  have hlt : i < l.length := by
    by_contra h
    rw [List.get?_eq_none.mpr (Nat.le_of_not_lt h)] at hg
    exact Option.noConfusion hg
  rw [List.get?_append hlt]
  exact hg

/-- C3 counterexample: reset while `connecting` does not cancel the
armed handshake timer.  After `resetConnection` the session is back in
`select` with a clear error, yet timer 0 is still deliverable at its
deadline, and firing it mutates the session afterwards: the error
becomes the handshake-timeout fault and the status changes, even though
no attempt is in flight. -/
theorem c3_counterexample :
    Reachable w0 wResetWhileConnecting
    ∧ wResetWhileConnecting.comp.mode = P2PMode.select
    ∧ wResetWhileConnecting.comp.error = none
    ∧ enabledB wResetWhileConnecting (.fire 0 10000) = true
    ∧ (step wResetWhileConnecting (.fire 0 10000)).comp.error
        = some "接続がタイムアウトしました。"
    ∧ (step wResetWhileConnecting (.fire 0 10000)).comp.status = "タイムアウト" := by
  exact ⟨Reachable.tail (reachable_run (by decide)) (by decide),
    by decide, by decide, by decide, by decide, by decide⟩

/-- C3 (amended): `resetConnection` from any state returns the
component to the initial select screen — mode `select`, no peer
identity, no bound connection, no error — and destroys the current
peer, which closes every connection it owns, so no in-flight connect
attempt can fire its `open` afterwards.  However it leaves the pending
handshake-timeout timer and the timer ref untouched, so an armed
timeout can still fire and mutate the session after the reset. -/
theorem c3_reset_behavior :
    ∀ w : World,
      ((step w .resetConnection).comp.mode = P2PMode.select
        ∧ (step w .resetConnection).comp.peerId = none
        ∧ (step w .resetConnection).comp.connection = none
        ∧ (step w .resetConnection).comp.error = none)
      ∧ (step w .resetConnection).timers = w.timers
      ∧ (step w .resetConnection).timeoutRef = w.timeoutRef
      ∧ (∀ i, w.peerRef = some i →
          ((step w .resetConnection).peers.get? i).all (fun r => r.destroyed) = true
          ∧ (∀ r ∈ (step w .resetConnection).conns, r.owner = i → r.closed = true)
          ∧ (∀ c r, (step w .resetConnection).conns.get? c = some r → r.owner = i →
              enabledB (step w .resetConnection) (.connOpen c) = false)) := by
  intro w
  have hstep : step w Event.resetConnection = resetConnection w := rfl
  rw [hstep]
  unfold resetConnection destroyPeer
  cases href : w.peerRef with
  | none =>
    dsimp only []
    refine ⟨⟨rfl, rfl, rfl, rfl⟩, rfl, rfl, ?_⟩
    intro i hi
    exact absurd hi (by simp)
  | some j =>
    dsimp only []
    refine ⟨⟨rfl, rfl, rfl, rfl⟩, rfl, rfl, ?_⟩
    intro i hi
    obtain rfl : j = i := by simpa using hi
    have hconns : ∀ r ∈ w.conns.map
        (fun c => if c.owner = j then { c with closed := true } else c),
        r.owner = j → r.closed = true := by
      intro r hr hro
      rw [List.mem_map] at hr
      obtain ⟨a, _, rfl⟩ := hr
      by_cases h : a.owner = j
      · simp [h]
      · simp only [if_neg h] at hro ⊢
        exact absurd hro h
    refine ⟨?_, hconns, ?_⟩
    · rw [get?_setAt, if_pos rfl]
      cases w.peers.get? j <;> simp
    · intro c r hgr hro
      have hc : r.closed = true := hconns r (List.get?_mem hgr) hro
      simp only [enabledB]
      rw [hgr]
      simp [hc]

/-- C3 witness: at the concrete armed session `wArmed` (guest
connecting with timer 0 armed), reset clears the error, keeps the timer
list unchanged, destroys peer 0 and leaves its connection unable to
fire `open`. -/
theorem c3_reset_behavior_witness :
    (step wArmed .resetConnection).comp.error = none
    ∧ (step wArmed .resetConnection).timers = wArmed.timers
    ∧ ((step wArmed .resetConnection).peers.get? 0).all (fun r => r.destroyed) = true
    ∧ enabledB (step wArmed .resetConnection) (.connOpen 0) = false := by
  have h := c3_reset_behavior wArmed
  have h0 := h.2.2.2 0 (by decide)
  refine ⟨h.1.2.2.2, h.2.1, h0.1, ?_⟩
  exact h0.2.2 0
    { owner := 0, outbound := true, opened := false, closed := true, closeHandled := false }
    (by decide) (by decide)

/-- C1 counterexample: timers armed by earlier attempts are never
cancelled on reset, so a stale timer can fire during a later attempt
before that attempt's own deadline.  In `wSecondAttempt` the current
guest attempt (connection 1, timer 1, deadline 19000) is connecting and
live, yet the stale timer 0 of the attempt abandoned by reset is
deliverable at time 10000, and firing it puts the session into the
handshake-timeout failure (error and status set) at `now = 10000`,
strictly before the current attempt's deadline and while it is still
pending — so the session shows `HandshakeTimeout` before its deadline. -/
theorem c1_counterexample :
    Reachable w0 (step wSecondAttempt (.fire 0 10000))
    ∧ wSecondAttempt.comp.mode = P2PMode.connecting
    ∧ wSecondAttempt.comp.error = none
    ∧ wSecondAttempt.timeoutRef = some 1
    ∧ wSecondAttempt.timers.get? 1
        = some (some { deadline := 19000, conn := 1, capturedMode := P2PMode.scan })
    ∧ connLiveB wSecondAttempt 1 = true
    ∧ enabledB wSecondAttempt (.fire 0 10000) = true
    ∧ (step wSecondAttempt (.fire 0 10000)).now = 10000
    ∧ (step wSecondAttempt (.fire 0 10000)).comp.error = some "接続がタイムアウトしました。"
    ∧ (step wSecondAttempt (.fire 0 10000)).comp.status = "タイムアウト"
    ∧ (step wSecondAttempt (.fire 0 10000)).comp.mode = P2PMode.connecting
    ∧ (step wSecondAttempt (.fire 0 10000)).timers.get? 1
        = some (some { deadline := 19000, conn := 1, capturedMode := P2PMode.scan })
    ∧ connLiveB (step wSecondAttempt (.fire 0 10000)) 1 = true := by
  exact ⟨Reachable.tail (reachable_run (by decide)) (by decide), by decide, by decide,
    by decide, by decide, by decide, by decide, by decide, by decide, by decide,
    by decide, by decide, by decide⟩

/-- C1 (amended): the timeout discipline holds per armed timer, not per
session.  (A) `handleScan` in scan mode with a live guard arms exactly
one new 10000 ms timer capturing the new connection, stores its id in
the ref and enters `connecting`; (B) a timer can fire only at or after
its own deadline, never before; (C) firing a pending timer (whose
captured mode is not `connected`, as every timer armed by `handleScan`
captures `scan`) reports the handshake-timeout fault, closes the
captured connection and spends the timer; (D) a closed connection can
never fire `open`, and stays closed under every event, so a late
handshake success on the aborted connection is discarded and can never
move the session to `connected`; (E) a connection `open` disarms the
referenced timer, a cleared timer stays cleared under every event, and
a cleared timer can never fire.  (For a session whose attempt is the
first since mount this yields the claim; with a stale timer pending
from an earlier attempt the claim itself fails, see the
counterexample.) -/
theorem c1_timeout_discipline :
    (∀ (w : World) (sid : String) (t : Nat),
      w.comp.mode = P2PMode.scan → w.peerRef.isNone = false →
      jsTruthy w.comp.peerId = true → sid ≠ "" →
      (step w (.handleScan sid t)).timers
        = w.timers ++ [some { deadline := t + 10000, conn := w.conns.length, capturedMode := P2PMode.scan }]
      ∧ (step w (.handleScan sid t)).timeoutRef = some w.timers.length
      ∧ (step w (.handleScan sid t)).comp.mode = P2PMode.connecting)
    ∧ (∀ (w : World) (i t : Nat), enabledB w (.fire i t) = true →
        ∃ T, w.timers.get? i = some (some T) ∧ T.deadline ≤ t)
    ∧ (∀ (w : World) (i t : Nat) (T : PendingTimer),
        w.timers.get? i = some (some T) → T.capturedMode ≠ P2PMode.connected →
        (step w (.fire i t)).comp.error = some "接続がタイムアウトしました。"
        ∧ (step w (.fire i t)).comp.status = "タイムアウト"
        ∧ (∀ r, (step w (.fire i t)).conns.get? T.conn = some r → r.closed = true)
        ∧ (step w (.fire i t)).timers.get? i = some none)
    ∧ (∀ (w : World) (c : Nat) (r : ConnRec),
        w.conns.get? c = some r → r.closed = true →
        enabledB w (.connOpen c) = false)
    ∧ (∀ (w : World) (e : Event) (c : Nat) (r : ConnRec),
        w.conns.get? c = some r → r.closed = true →
        ∃ r', (step w e).conns.get? c = some r' ∧ r'.closed = true)
    ∧ (∀ (w : World) (c i : Nat), w.timeoutRef = some i → i < w.timers.length →
        (step w (.connOpen c)).timers.get? i = some none
        ∧ (step w (.connOpen c)).timeoutRef = none)
    ∧ (∀ (w : World) (e : Event) (i : Nat), w.timers.get? i = some none →
        (step w e).timers.get? i = some none)
    ∧ (∀ (w : World) (i t : Nat), w.timers.get? i = some none →
        enabledB w (.fire i t) = false) := by
  refine ⟨?_, ?_, ?_, ?_, ?_, ?_, ?_, ?_⟩
  · intro w sid t hmode href hpid hsid
    have hsid' : (sid == "") = false := by
      simp [hsid]
    show (handleScan w sid t).timers = _ ∧ (handleScan w sid t).timeoutRef = _
      ∧ (handleScan w sid t).comp.mode = _
    unfold handleScan
    rw [href, hpid, hsid']
    simp only [Bool.false_or, Bool.not_true, Bool.or_false, if_false]
    rw [hmode]
    exact ⟨rfl, rfl, rfl⟩
  · intro w i t hen
    simp only [enabledB] at hen
    rw [Bool.and_eq_true] at hen
    rcases hg : w.timers.get? i with _ | o
    · rw [hg] at hen
      exact absurd hen.1 (by simp)
    · cases o with
      | none =>
        rw [hg] at hen
        exact absurd hen.1 (by simp)
      | some T =>
        rw [hg] at hen
        refine ⟨T, rfl, ?_⟩
        have := hen.1
        simpa using this
  · intro w i t T hT hcm
    show (fireTimeout w i t).comp.error = _ ∧ (fireTimeout w i t).comp.status = _
      ∧ (∀ r, (fireTimeout w i t).conns.get? T.conn = some r → r.closed = true)
      ∧ (fireTimeout w i t).timers.get? i = some none
    unfold fireTimeout
    rw [hT]
    dsimp only []
    rw [if_neg hcm]
    refine ⟨rfl, rfl, ?_, ?_⟩
    · intro r hr
      rw [get?_setAt, if_pos rfl] at hr
      rcases hg : w.conns.get? T.conn with _ | a
      · rw [hg] at hr
        exact Option.noConfusion hr
      · rw [hg, Option.map_some'] at hr
        obtain rfl : { a with closed := true } = r := Option.some.inj hr
        rfl
    · rw [get?_setAt, if_pos rfl, hT, Option.map_some']
  · intro w c r hg hc
    show (w.conns.get? c).any _ = false
    rw [hg]
    simp [hc]
  · intro w e c r hg hc
    cases e with
    | startHosting =>
      show ∃ r', (startHosting w).conns.get? c = _ ∧ _
      unfold startHosting initializePeer
      cases w.peerRef with
      | none => exact ⟨r, hg, hc⟩
      | some j => exact get?_map_closed hg hc
    | startScanning =>
      show ∃ r', (startScanning w).conns.get? c = _ ∧ _
      unfold startScanning initializePeer
      cases w.peerRef with
      | none =>
        dsimp only []
        split <;> exact ⟨r, hg, hc⟩
      | some j =>
        dsimp only []
        split <;> exact get?_map_closed hg hc
    | regenerateId =>
      show ∃ r', (initializePeer w w.comp.mode).conns.get? c = _ ∧ _
      unfold initializePeer
      cases w.peerRef with
      | none => exact ⟨r, hg, hc⟩
      | some j => exact get?_map_closed hg hc
    | peerOpen p id =>
      refine ⟨r, ?_, hc⟩
      show (peerOpenHandler w p id).conns.get? c = some r
      exact hg
    | peerError t => exact ⟨r, hg, hc⟩
    | connIncoming =>
      refine ⟨r, ?_, hc⟩
      show (connIncomingHandler w).conns.get? c = some r
      exact get?_append_left hg
    | handleScan sid t =>
      show ∃ r', (handleScan w sid t).conns.get? c = _ ∧ _
      unfold handleScan
      split
      · exact ⟨r, hg, hc⟩
      · exact ⟨r, get?_append_left hg, hc⟩
    | connOpen c' =>
      show ∃ r', (handleConnection w c').conns.get? c = _ ∧ _
      have hconns : (handleConnection w c').conns
          = setAt (clearTimeoutRef w).conns c' (fun x => { x with opened := true }) := rfl
      rw [hconns]
      have hg' : (clearTimeoutRef w).conns.get? c = some r := by
        unfold clearTimeoutRef
        cases w.timeoutRef <;> exact hg
      exact get?_setAt_closed (fun x hx => hx) hg' hc
    | connData c' d fid ts =>
      refine ⟨r, ?_, hc⟩
      show (handleData w d fid ts).conns.get? c = some r
      unfold handleData
      split
      · exact hg
      · split <;> exact hg
    | connClose c' =>
      show ∃ r', (connCloseHandler w c').conns.get? c = _ ∧ _
      unfold connCloseHandler
      dsimp only []
      split <;> split <;> exact get?_setAt_closed (fun x _ => rfl) hg hc
    | connError c' =>
      refine ⟨r, ?_, hc⟩
      show (connErrorHandler w c').conns.get? c = some r
      unfold connErrorHandler
      dsimp only []
      split <;> split <;> try split
      all_goals exact hg
    | fire i t =>
      show ∃ r', (fireTimeout w i t).conns.get? c = _ ∧ _
      unfold fireTimeout
      rcases w.timers.get? i with _ | (_ | T)
      · exact ⟨r, hg, hc⟩
      · exact ⟨r, hg, hc⟩
      · dsimp only []
        split
        · exact ⟨r, hg, hc⟩
        · exact get?_setAt_closed (fun x _ => rfl) hg hc
    | setInput s => exact ⟨r, hg, hc⟩
    | sendMessage fid ts =>
      refine ⟨r, ?_, hc⟩
      show (sendMessage w fid ts).conns.get? c = some r
      unfold sendMessage
      split
      · exact hg
      · split <;> exact hg
    | sendFile f fid ts =>
      refine ⟨r, ?_, hc⟩
      show (sendFile w f fid ts).conns.get? c = some r
      unfold sendFile
      split <;> exact hg
    | resetConnection =>
      show ∃ r', (resetConnection w).conns.get? c = _ ∧ _
      unfold resetConnection
      cases w.peerRef with
      | none => exact ⟨r, hg, hc⟩
      | some j => exact get?_map_closed hg hc
  · intro w c i href hlt
    have hsome : ∃ o, w.timers.get? i = some o := by
      rcases hg : w.timers.get? i with _ | o
      · rw [List.get?_eq_none] at hg
        exact absurd hg (by omega)
      · exact ⟨o, rfl⟩
    obtain ⟨o, ho⟩ := hsome
    constructor
    · show (handleConnection w c).timers.get? i = some none
      have ht : (handleConnection w c).timers = (clearTimeoutRef w).timers := rfl
      rw [ht]
      unfold clearTimeoutRef
      rw [href]
      rw [get?_setAt, if_pos rfl, ho, Option.map_some']
    · show (handleConnection w c).timeoutRef = none
      have ht : (handleConnection w c).timeoutRef = (clearTimeoutRef w).timeoutRef := rfl
      rw [ht]
      unfold clearTimeoutRef
      rw [href]
  · intro w e i hg
    cases e with
    | startHosting =>
      show (startHosting w).timers.get? i = some none
      unfold startHosting initializePeer
      cases w.peerRef <;> exact hg
    | startScanning =>
      show (startScanning w).timers.get? i = some none
      unfold startScanning initializePeer
      cases w.peerRef <;> dsimp only [] <;> split <;> exact hg
    | regenerateId =>
      show (initializePeer w w.comp.mode).timers.get? i = some none
      unfold initializePeer
      cases w.peerRef <;> exact hg
    | peerOpen p id =>
      show (peerOpenHandler w p id).timers.get? i = some none
      exact hg
    | peerError t => exact hg
    | connIncoming =>
      show (connIncomingHandler w).timers.get? i = some none
      exact hg
    | handleScan sid t =>
      show (handleScan w sid t).timers.get? i = some none
      unfold handleScan
      split
      · exact hg
      · exact get?_append_left hg
    | connOpen c =>
      show (handleConnection w c).timers.get? i = some none
      have ht : (handleConnection w c).timers = (clearTimeoutRef w).timers := rfl
      rw [ht]
      unfold clearTimeoutRef
      cases w.timeoutRef with
      | none => exact hg
      | some j => exact get?_setAt_none hg
    | connData c d fid ts =>
      show (handleData w d fid ts).timers.get? i = some none
      unfold handleData
      split
      · exact hg
      · split <;> exact hg
    | connClose c =>
      show (connCloseHandler w c).timers.get? i = some none
      unfold connCloseHandler
      dsimp only []
      split <;> split <;> exact hg
    | connError c =>
      show (connErrorHandler w c).timers.get? i = some none
      unfold connErrorHandler
      dsimp only []
      split <;> split <;> try split
      all_goals exact hg
    | fire j t =>
      show (fireTimeout w j t).timers.get? i = some none
      unfold fireTimeout
      rcases w.timers.get? j with _ | (_ | T)
      · exact hg
      · exact hg
      · dsimp only []
        split <;> exact get?_setAt_none hg
    | setInput s => exact hg
    | sendMessage fid ts =>
      show (sendMessage w fid ts).timers.get? i = some none
      unfold sendMessage
      split
      · exact hg
      · split <;> exact hg
    | sendFile f fid ts =>
      show (sendFile w f fid ts).timers.get? i = some none
      unfold sendFile
      split <;> exact hg
    | resetConnection =>
      show (resetConnection w).timers.get? i = some none
      unfold resetConnection
      cases w.peerRef <;> exact hg
  · intro w i t hg
    show (((w.timers.get? i).getD none).any _ && _) = false
    rw [hg]
    simp

/-- C1 witness: at the concrete guest session — `wScanning` (about to
scan) and `wArmed` (timer 0 armed with deadline 10000, connection 0
pending) — arming, firing, abort-on-fire and disarm-on-open all behave
as stated. -/
theorem c1_timeout_discipline_witness :
    (step wScanning (.handleScan "H" 0)).timers
      = wScanning.timers ++ [some { deadline := 10000, conn := wScanning.conns.length, capturedMode := P2PMode.scan }]
    ∧ (step wArmed (.fire 0 10000)).comp.error = some "接続がタイムアウトしました。"
    ∧ (step wArmed (.fire 0 10000)).timers.get? 0 = some none
    ∧ enabledB (step wArmed (.fire 0 10000)) (.connOpen 0) = false
    ∧ (step wArmed (.connOpen 0)).timers.get? 0 = some none
    ∧ (step wArmed (.connOpen 0)).timeoutRef = none := by
  have hA := (c1_timeout_discipline.1 wScanning "H" 0 (by decide) (by decide)
    (by decide) (by decide)).1
  have hC := c1_timeout_discipline.2.2.1 wArmed 0 10000
    { deadline := 10000, conn := 0, capturedMode := P2PMode.scan } (by decide) (by decide)
  have hD := c1_timeout_discipline.2.2.2.1 (step wArmed (.fire 0 10000)) 0
    { owner := 0, outbound := true, opened := false, closed := true, closeHandled := false }
    (by decide) (by decide)
  have hE := c1_timeout_discipline.2.2.2.2.2.1 wArmed 0 0 (by decide) (by decide)
  exact ⟨hA, hC.1, hC.2.2.2, hD, hE.1, hE.2⟩

theorem peerLive_iff {w : World} {i : Nat} :
    peerLiveB w i = true ↔ ∃ r, w.peers.get? i = some r ∧ r.destroyed = false := by
  unfold peerLiveB
  cases h : w.peers.get? i <;> simp

theorem get?_append_cases {l : List α} {x a : α} {i : Nat}
    (h : (l ++ [x]).get? i = some a) :
    (i < l.length ∧ l.get? i = some a) ∨ (i = l.length ∧ a = x) := by
  rcases Nat.lt_trichotomy i l.length with hlt | heq | hgt
  · left
    exact ⟨hlt, by rwa [List.get?_append hlt] at h⟩
  · right
    refine ⟨heq, ?_⟩
    subst heq
    rw [List.get?_concat_length] at h
    exact (Option.some.inj h).symm
  · exfalso
    have hnone : (l ++ [x]).get? i = none := by
      rw [List.get?_eq_none, List.length_append, List.length_singleton]
      omega
    rw [hnone] at h
    exact Option.noConfusion h

theorem initializePeer_inv (w : World) (m : P2PMode)
    (h1 : ∀ i, peerLiveB w i = true → w.peerRef = some i)
    (h2 : ∀ r ∈ w.conns, r.closed = false → w.peerRef = some r.owner) :
    (∀ i, peerLiveB (initializePeer w m) i = true →
      (initializePeer w m).peerRef = some i)
    ∧ (∀ r ∈ (initializePeer w m).conns, r.closed = true) := by
  unfold initializePeer destroyPeer
  cases href : w.peerRef with
  | none =>
    dsimp only []
    constructor
    · intro i hl
      obtain ⟨r, hg, hd⟩ := peerLive_iff.mp hl
      rcases get?_append_cases hg with ⟨_, hg'⟩ | ⟨heq, _⟩
      · have := h1 i (peerLive_iff.mpr ⟨r, hg', hd⟩)
        rw [href] at this
        exact Option.noConfusion this
      · rw [heq]
    · intro r hr
      cases hcl : r.closed
      · have := h2 r hr hcl
        rw [href] at this
        exact Option.noConfusion this
      · rfl
  | some j =>
    dsimp only []
    constructor
    · intro i hl
      obtain ⟨r, hg, hd⟩ := peerLive_iff.mp hl
      rcases get?_append_cases hg with ⟨_, hg'⟩ | ⟨heq, _⟩
      · rw [get?_setAt] at hg'
        by_cases hij : i = j
        · rw [if_pos hij] at hg'
          cases hgj : w.peers.get? i
          · rw [hgj] at hg'
            exact Option.noConfusion hg'
          · rw [hgj, Option.map_some'] at hg'
            obtain rfl := Option.some.inj hg'
            exact Bool.noConfusion hd
        · rw [if_neg hij] at hg'
          have := h1 i (peerLive_iff.mpr ⟨r, hg', hd⟩)
          rw [href] at this
          exact absurd (Option.some.inj this).symm hij
      · rw [heq]
    · intro r hr
      rw [List.mem_map] at hr
      obtain ⟨a, ha, rfl⟩ := hr
      by_cases ho : a.owner = j
      · simp [ho]
      · rw [if_neg ho]
        cases hcl : a.closed
        · have := h2 a ha hcl
          rw [href] at this
          exact absurd (Option.some.inj this).symm ho
        · rfl

theorem inv_after_init (w' : World)
    (hp : ∀ i, peerLiveB w' i = true → w'.peerRef = some i)
    (hac : ∀ r ∈ w'.conns, r.closed = true) : Inv w' := by
  refine ⟨hp, ?_⟩
  intro r hr hcl
  rw [hac r hr] at hcl
  exact Bool.noConfusion hcl

theorem allClosed_init' (m : P2PMode) {w w' : World}
    (hconns : w'.conns = (initializePeer w m).conns)
    (h1 : ∀ i, peerLiveB w i = true → w.peerRef = some i)
    (h2 : ∀ r ∈ w.conns, r.closed = false → w.peerRef = some r.owner) :
    ∀ r ∈ w'.conns, r.closed = true := by
  intro r hr
  rw [hconns] at hr
  exact (initializePeer_inv w m h1 h2).2 r hr

theorem live_init' {w w' : World} {m : P2PMode}
    (hpeers : w'.peers = (initializePeer w m).peers)
    (href : w'.peerRef = (initializePeer w m).peerRef)
    (h1 : ∀ i, peerLiveB w i = true → w.peerRef = some i)
    (h2 : ∀ r ∈ w.conns, r.closed = false → w.peerRef = some r.owner) :
    ∀ i, peerLiveB w' i = true → w'.peerRef = some i := by
  intro i hl
  rw [href]
  apply (initializePeer_inv w m h1 h2).1
  unfold peerLiveB at hl ⊢
  rwa [hpeers] at hl

theorem inv_after_init' {w w' : World} {m : P2PMode}
    (hpeers : w'.peers = (initializePeer w m).peers)
    (href : w'.peerRef = (initializePeer w m).peerRef)
    (hconns : w'.conns = (initializePeer w m).conns)
    (h1 : ∀ i, peerLiveB w i = true → w.peerRef = some i)
    (h2 : ∀ r ∈ w.conns, r.closed = false → w.peerRef = some r.owner) :
    Inv w' := by
  obtain ⟨hp, hac⟩ := initializePeer_inv w m h1 h2
  refine inv_after_init w' ?_ ?_
  · intro i hl
    rw [href]
    apply hp
    unfold peerLiveB at hl ⊢
    rwa [hpeers] at hl
  · intro r hr
    rw [hconns] at hr
    exact hac r hr

theorem inv_transfer (w w' : World)
    (hpeers : w'.peers = w.peers) (href : w'.peerRef = w.peerRef)
    (hconns : w'.conns = w.conns) (h : Inv w) : Inv w' := by
  obtain ⟨h1, h2⟩ := h
  refine ⟨?_, ?_⟩
  · intro i hl
    rw [href]
    apply h1
    unfold peerLiveB at hl ⊢
    rwa [hpeers] at hl
  · intro r hr hcl
    rw [href]
    rw [hconns] at hr
    exact h2 r hr hcl

theorem handleData_fields (w : World) (d : WireData) (fid : String) (ts : Nat) :
    (handleData w d fid ts).peers = w.peers
    ∧ (handleData w d fid ts).peerRef = w.peerRef
    ∧ (handleData w d fid ts).conns = w.conns
    ∧ (handleData w d fid ts).comp.mode = w.comp.mode := by
  unfold handleData
  split
  · exact ⟨rfl, rfl, rfl, rfl⟩
  · split <;> exact ⟨rfl, rfl, rfl, rfl⟩

theorem sendMessage_fields (w : World) (fid : String) (ts : Nat) :
    (sendMessage w fid ts).peers = w.peers
    ∧ (sendMessage w fid ts).peerRef = w.peerRef
    ∧ (sendMessage w fid ts).conns = w.conns
    ∧ (sendMessage w fid ts).comp.mode = w.comp.mode := by
  unfold sendMessage
  split
  · exact ⟨rfl, rfl, rfl, rfl⟩
  · split <;> exact ⟨rfl, rfl, rfl, rfl⟩

theorem sendFile_fields (w : World) (f : Option JSFile) (fid : String) (ts : Nat) :
    (sendFile w f fid ts).peers = w.peers
    ∧ (sendFile w f fid ts).peerRef = w.peerRef
    ∧ (sendFile w f fid ts).conns = w.conns
    ∧ (sendFile w f fid ts).comp.mode = w.comp.mode := by
  unfold sendFile
  split <;> exact ⟨rfl, rfl, rfl, rfl⟩

theorem connError_fields (w : World) (c : Nat) :
    (connErrorHandler w c).peers = w.peers
    ∧ (connErrorHandler w c).peerRef = w.peerRef
    ∧ (connErrorHandler w c).conns = w.conns := by
  unfold connErrorHandler
  dsimp only []
  split <;> split <;> try split
  all_goals exact ⟨rfl, rfl, rfl⟩

theorem connClose_fields (w : World) (c : Nat) :
    (connCloseHandler w c).peers = w.peers
    ∧ (connCloseHandler w c).peerRef = w.peerRef
    ∧ (connCloseHandler w c).conns
        = setAt w.conns c (fun r => { r with closed := true, closeHandled := true }) := by
  unfold connCloseHandler
  dsimp only []
  split <;> split <;> exact ⟨rfl, rfl, rfl⟩

theorem conns_clearTimeoutRef (w : World) :
    (clearTimeoutRef w).conns = w.conns := by
  unfold clearTimeoutRef
  cases w.timeoutRef <;> rfl

theorem peerRef_clearTimeoutRef (w : World) :
    (clearTimeoutRef w).peerRef = w.peerRef := by
  unfold clearTimeoutRef
  cases w.timeoutRef <;> rfl

theorem peers_clearTimeoutRef (w : World) :
    (clearTimeoutRef w).peers = w.peers := by
  unfold clearTimeoutRef
  cases w.timeoutRef <;> rfl

theorem inv_w0 : Inv w0 := by
  constructor
  · intro i h
    simp [peerLiveB, w0] at h
  · intro r hr
    simp [w0] at hr

theorem inv_step (w : World) (e : Event) (hI : Inv w)
    (hE : enabledB w e = true) : Inv (step w e) := by
  obtain ⟨h1, h2⟩ := hI
  cases e with
  | startHosting =>
    show Inv (startHosting w)
    unfold startHosting
    dsimp only []
    apply inv_after_init'
    · rfl
    · rfl
    · rfl
    · exact fun i h => h1 i h
    · exact fun r hr h => h2 r hr h
  | startScanning =>
    show Inv (startScanning w)
    unfold startScanning
    dsimp only []
    split
    · apply inv_after_init'
      · rfl
      · rfl
      · rfl
      · exact fun i h => h1 i h
      · exact fun r hr h => h2 r hr h
    · apply inv_after_init'
      · rfl
      · rfl
      · rfl
      · exact fun i h => h1 i h
      · exact fun r hr h => h2 r hr h
  | regenerateId =>
    show Inv (initializePeer w w.comp.mode)
    apply inv_after_init'
    · rfl
    · rfl
    · rfl
    · exact fun i h => h1 i h
    · exact fun r hr h => h2 r hr h
  | peerOpen p id =>
    show Inv (peerOpenHandler w p id)
    exact inv_transfer w _ rfl rfl rfl ⟨h1, h2⟩
  | peerError t =>
    exact inv_transfer w _ rfl rfl rfl ⟨h1, h2⟩
  | connIncoming =>
    show Inv (connIncomingHandler w)
    simp only [enabledB] at hE
    have hrefsome : ∃ p, w.peerRef = some p := by
      cases hr : w.peerRef
      · rw [hr] at hE
        simp at hE
      · exact ⟨_, rfl⟩
    obtain ⟨p, hp⟩ := hrefsome
    refine ⟨fun i hl => h1 i hl, ?_⟩
    intro r hr hcl
    have hcn : (connIncomingHandler w).conns = w.conns ++
        [({ owner := w.peerRef.getD 0, outbound := false, opened := false,
            closed := false, closeHandled := false } : ConnRec)] := rfl
    rw [hcn, List.mem_append] at hr
    rcases hr with hr | hr
    · exact h2 r hr hcl
    · obtain rfl := List.mem_singleton.mp hr
      show w.peerRef = _
      rw [hp]
      rfl
  | handleScan sid t =>
    show Inv (handleScan w sid t)
    unfold handleScan
    split
    · exact ⟨h1, h2⟩
    · rename_i hguard
      rw [Bool.or_eq_true, Bool.or_eq_true] at hguard
      have hrefsome : ∃ p, w.peerRef = some p := by
        cases hr : w.peerRef
        · exact absurd (Or.inl (Or.inl (by rw [hr]; rfl))) hguard
        · exact ⟨_, rfl⟩
      obtain ⟨p, hp⟩ := hrefsome
      refine ⟨fun i hl => h1 i hl, ?_⟩
      intro r hr hcl
      rw [List.mem_append] at hr
      rcases hr with hr | hr
      · exact h2 r hr hcl
      · obtain rfl : r = _ := List.mem_singleton.mp hr
        rw [hp]
        rfl
  | connOpen c =>
    show Inv (handleConnection w c)
    have hconns : (handleConnection w c).conns
        = setAt w.conns c (fun x => { x with opened := true }) := by
      show setAt (clearTimeoutRef w).conns c _ = _
      rw [conns_clearTimeoutRef]
    have hrf : (handleConnection w c).peerRef = w.peerRef := by
      show (clearTimeoutRef w).peerRef = _
      exact peerRef_clearTimeoutRef w
    have hpe : (handleConnection w c).peers = w.peers := by
      show (clearTimeoutRef w).peers = _
      exact peers_clearTimeoutRef w
    refine ⟨?_, ?_⟩
    · intro i hl
      rw [hrf]
      apply h1
      unfold peerLiveB at hl ⊢
      rwa [hpe] at hl
    · intro r hr hcl
      rw [hrf]
      rw [hconns] at hr
      rcases mem_setAt hr with hr' | ⟨a, ha, rfl⟩
      · exact h2 r hr' hcl
      · exact h2 a ha hcl
  | connData c d fid ts =>
    obtain ⟨hpe, hrf, hcn, _⟩ := handleData_fields w d fid ts
    exact inv_transfer w _ hpe hrf hcn ⟨h1, h2⟩
  | connClose c =>
    show Inv (connCloseHandler w c)
    obtain ⟨hpe, hrf, hcn⟩ := connClose_fields w c
    refine ⟨?_, ?_⟩
    · intro i hl
      rw [hrf]
      apply h1
      unfold peerLiveB at hl ⊢
      rwa [hpe] at hl
    · intro r hr hcl
      rw [hrf]
      rw [hcn] at hr
      rcases mem_setAt hr with hr' | ⟨a, ha, rfl⟩
      · exact h2 r hr' hcl
      · exact Bool.noConfusion hcl
  | connError c =>
    show Inv (connErrorHandler w c)
    obtain ⟨hpe, hrf, hcn⟩ := connError_fields w c
    exact inv_transfer w _ hpe hrf hcn ⟨h1, h2⟩
  | fire i t =>
    show Inv (fireTimeout w i t)
    unfold fireTimeout
    cases hg : w.timers.get? i with
    | none => exact ⟨h1, h2⟩
    | some o =>
      cases o with
      | none => exact ⟨h1, h2⟩
      | some T =>
        dsimp only []
        split
        · exact inv_transfer w _ rfl rfl rfl ⟨h1, h2⟩
        · refine ⟨fun i' hl => h1 i' hl, ?_⟩
          intro r hr hcl
          rcases mem_setAt hr with hr' | ⟨a, ha, rfl⟩
          · exact h2 r hr' hcl
          · exact Bool.noConfusion hcl
  | setInput s =>
    exact inv_transfer w _ rfl rfl rfl ⟨h1, h2⟩
  | sendMessage fid ts =>
    obtain ⟨hpe, hrf, hcn, _⟩ := sendMessage_fields w fid ts
    exact inv_transfer w _ hpe hrf hcn ⟨h1, h2⟩
  | sendFile f fid ts =>
    obtain ⟨hpe, hrf, hcn, _⟩ := sendFile_fields w f fid ts
    exact inv_transfer w _ hpe hrf hcn ⟨h1, h2⟩
  | resetConnection =>
    show Inv (resetConnection w)
    unfold resetConnection destroyPeer
    cases href : w.peerRef with
    | none =>
      dsimp only []
      exact inv_transfer w _ rfl rfl rfl ⟨h1, h2⟩
    | some j =>
      dsimp only []
      refine ⟨?_, ?_⟩
      · intro i hl
        obtain ⟨r, hg, hd⟩ := peerLive_iff.mp hl
        rw [get?_setAt] at hg
        by_cases hij : i = j
        · rw [if_pos hij] at hg
          cases hgj : w.peers.get? i
          · rw [hgj] at hg
            exact Option.noConfusion hg
          · rw [hgj, Option.map_some'] at hg
            obtain rfl := Option.some.inj hg
            exact Bool.noConfusion hd
        · rw [if_neg hij] at hg
          have := h1 i (peerLive_iff.mpr ⟨r, hg, hd⟩)
          rw [href] at this
          exact absurd (Option.some.inj this).symm hij
      · intro r hr hcl
        rw [List.mem_map] at hr
        obtain ⟨a, ha, rfl⟩ := hr
        by_cases ho : a.owner = j
        · simp [ho] at hcl
        · rw [if_neg ho] at hcl ⊢
          have := h2 a ha hcl
          rw [href] at this
          exact absurd (Option.some.inj this).symm ho

theorem reachable_inv {w : World} (h : Reachable w0 w) : Inv w := by
  induction h with
  | refl => exact inv_w0
  | tail _ he ih => exact inv_step _ _ ih he

/-- C5: starting a session twice in a row without an intervening reset
leaves at most one live peer, at most one live channel and at most one
outstanding handshake.  (a) Every call to `initializePeer` with a
previously created peer first synchronously destroys it — marking it
destroyed and closing every data connection it owns, inbound channels
included — before creating and referencing the single new live peer.
(b) In every reachable state at most one peer is live: any two live
peer indices coincide.  (c) From every reachable state, a start of
either role (`startHosting` or `startScanning`) leaves every
previously created data connection closed — no live channel and no
outstanding handshake attempt survives the new start, so the second
start invalidates the first — and every peer still live afterwards is
the newly referenced one.  (No claim is made that a single session
holds at most one live channel over time: a hosting peer accepts
further inbound connections, see `connIncomingHandler`.) -/
theorem c5_single_peer :
    (∀ (w : World) (m : P2PMode) (i : Nat),
      w.peerRef = some i → i < w.peers.length →
      ((initializePeer w m).peers.get? i).all (fun r => r.destroyed) = true
      ∧ (initializePeer w m).peerRef = some w.peers.length
      ∧ (initializePeer w m).peers.get? w.peers.length
          = some { destroyed := false, capturedMode := m }
      ∧ (∀ r ∈ (initializePeer w m).conns, r.owner = i → r.closed = true))
    ∧ (∀ w : World, Reachable w0 w →
      ∀ i j, peerLiveB w i = true → peerLiveB w j = true → i = j)
    ∧ (∀ w : World, Reachable w0 w →
      (∀ r ∈ (startHosting w).conns, r.closed = true)
      ∧ (∀ i, peerLiveB (startHosting w) i = true →
          (startHosting w).peerRef = some i)
      ∧ (∀ r ∈ (startScanning w).conns, r.closed = true)
      ∧ (∀ i, peerLiveB (startScanning w) i = true →
          (startScanning w).peerRef = some i)) := by
  refine ⟨?_, ?_, ?_⟩
  · intro w m i href hlt
    unfold initializePeer destroyPeer
    rw [href]
    dsimp only []
    refine ⟨?_, ?_, ?_, ?_⟩
    · rw [List.get?_append (by rwa [length_setAt])]
      rw [get?_setAt, if_pos rfl]
      cases w.peers.get? i <;> simp
    · rw [length_setAt]
    · have hlen : w.peers.length
          = (setAt w.peers i fun r => { r with destroyed := true }).length :=
        (length_setAt _ _ _).symm
      rw [hlen, List.get?_concat_length]
    · intro r hr hro
      rw [List.mem_map] at hr
      obtain ⟨a, _, rfl⟩ := hr
      by_cases ho : a.owner = i
      · simp [ho]
      · rw [if_neg ho] at hro
        exact absurd hro ho
  · intro w hr
    obtain ⟨h1, _⟩ := reachable_inv hr
    intro i j hi hj
    exact Option.some.inj ((h1 i hi).symm.trans (h1 j hj))
  · intro w hr
    obtain ⟨h1, h2⟩ := reachable_inv hr
    refine ⟨?_, ?_, ?_, ?_⟩
    · show ∀ r ∈ (startHosting w).conns, r.closed = true
      unfold startHosting
      dsimp only []
      apply allClosed_init' w.comp.mode
      · rfl
      · exact fun i h => h1 i h
      · exact fun r hrr h => h2 r hrr h
    · show ∀ i, peerLiveB (startHosting w) i = true →
          (startHosting w).peerRef = some i
      unfold startHosting
      dsimp only []
      apply live_init'
      · rfl
      · rfl
      · exact fun i h => h1 i h
      · exact fun r hrr h => h2 r hrr h
    · show ∀ r ∈ (startScanning w).conns, r.closed = true
      unfold startScanning
      dsimp only []
      split
      · apply allClosed_init' w.comp.mode
        · rfl
        · exact fun i h => h1 i h
        · exact fun r hrr h => h2 r hrr h
      · apply allClosed_init' w.comp.mode
        · rfl
        · exact fun i h => h1 i h
        · exact fun r hrr h => h2 r hrr h
    · show ∀ i, peerLiveB (startScanning w) i = true →
          (startScanning w).peerRef = some i
      unfold startScanning
      dsimp only []
      split
      · apply live_init'
        · rfl
        · rfl
        · exact fun i h => h1 i h
        · exact fun r hrr h => h2 r hrr h
      · apply live_init'
        · rfl
        · rfl
        · exact fun i h => h1 i h
        · exact fun r hrr h => h2 r hrr h

/-- C5 witness: at the concrete connected session `wConnected` (peer 0
live, connection 0 bound), `initializePeer` destroys peer 0 and
creates and references the new live peer 1; at the concrete
failed-attempt session `wErrored` (connection 0 still unclosed on the
select screen), a second `startScanning` leaves connection 0 closed;
and peer uniqueness at the concrete two-attempt session
`wSecondAttempt` rules out the first peer still being live. -/
theorem c5_single_peer_witness :
    ((initializePeer wConnected P2PMode.host).peers.get? 0).all (fun r => r.destroyed) = true
    ∧ (initializePeer wConnected P2PMode.host).peerRef = some 1
    ∧ (initializePeer wConnected P2PMode.host).peers.get? 1
        = some { destroyed := false, capturedMode := P2PMode.host }
    ∧ ((startScanning wErrored).conns.get? 0).all (fun r => r.closed) = true
    ∧ peerLiveB wSecondAttempt 1 = true
    ∧ peerLiveB wSecondAttempt 0 = false := by
  have ha := c5_single_peer.1 wConnected P2PMode.host 0 (by decide) (by decide)
  have hb := c5_single_peer.2.1 wSecondAttempt (reachable_run (by decide))
  have hc := (c5_single_peer.2.2 wErrored (reachable_run (by decide))).2.2.1
  refine ⟨ha.1, ha.2.1, ha.2.2.1, ?_, by decide, ?_⟩
  · cases hg : (startScanning wErrored).conns.get? 0 with
    | none => rfl
    | some r =>
      have hcr := hc r (List.get?_mem hg)
      simp [hcr]
  · cases hl : peerLiveB wSecondAttempt 0 with
    | false => rfl
    | true => exact absurd (hb 0 1 hl (by decide)) (by decide)

end QRSend
